import Mathlib

/-!
Verification of the UpdateController core (Go) against its specification.

We shallowly embed the relevant Go functions over `GoStr := List Char`
(a Go string is a byte sequence; the inputs of interest are ASCII text).
Filesystem reads, subprocess runs and the Kubernetes API are modelled as
explicit environment records whose fields carry the outcomes the real
collaborators would produce; the embedded functions additionally return
the trace of collaborator invocations they make, so that temporal claims
("never invokes X", "retries exactly once") become statements about the
returned trace.
-/

namespace UpdateController

/-- A Go string, modelled as its character list. -/
abbrev GoStr := List Char

/-- Convert a Lean string literal to the `GoStr` model. -/
def gs (s : String) : GoStr := s.toList

/-- Go `unicode.IsSpace` restricted to the ASCII space characters it accepts
(the characters relevant to steamcmd output and manifests). -/
def isGoSpace (c : Char) : Bool :=
  c = ' ' || c = '\t' || c = '\n' || c = '\x0b' || c = '\x0c' || c = '\r'

/-- Does `pat` occur at the start of `s`? (Go `strings.HasPrefix`.) -/
def goStartsWith : GoStr → GoStr → Bool
  | _, [] => true
  | [], _ :: _ => false
  | a :: s, b :: t => a = b && goStartsWith s t

/-- Go `strings.Contains s sub`: substring occurrence. -/
def goContains : GoStr → GoStr → Bool
  | [], sub => sub.isEmpty
  | s@(_ :: s'), sub => goStartsWith s sub || goContains s' sub

/-- Helper for `goFields`: `acc` holds the characters of the current field
in reverse order. -/
def goFieldsAux : GoStr → GoStr → List GoStr
  | [], acc => if acc = [] then [] else [acc.reverse]
  | c :: rest, acc =>
    if isGoSpace c then
      if acc = [] then goFieldsAux rest []
      else acc.reverse :: goFieldsAux rest []
    else goFieldsAux rest (c :: acc)

/-- Go `strings.Fields`: split around runs of whitespace, dropping empty fields. -/
def goFields (s : GoStr) : List GoStr := goFieldsAux s []

/-- Equality of `Except` values is decidable when it is for both sides. -/
instance {α β : Type} [DecidableEq α] [DecidableEq β] : DecidableEq (Except α β) :=
  fun x y =>
    match x, y with
    | .ok a, .ok b =>
      match decEq a b with
      | isTrue h => isTrue (h ▸ rfl)
      | isFalse h => isFalse (fun hh => h (by injection hh))
    | .error a, .error b =>
      match decEq a b with
      | isTrue h => isTrue (h ▸ rfl)
      | isFalse h => isFalse (fun hh => h (by injection hh))
    | .ok _, .error _ => isFalse (fun hh => Except.noConfusion hh)
    | .error _, .ok _ => isFalse (fun hh => Except.noConfusion hh)

/-- Go `strings.Split s "\n"`. -/
def goSplitLines : GoStr → List GoStr
  | [] => [[]]
  | c :: rest =>
    if c = '\n' then [] :: goSplitLines rest
    else
      match goSplitLines rest with
      | [] => [[c]]
      | l :: ls => (c :: l) :: ls

/-- Go `strings.Trim s cutset` for a single-character cutset: remove all
leading and trailing occurrences of `cut`. -/
def goTrim (s : GoStr) (cut : Char) : GoStr :=
  ((s.dropWhile (· = cut)).reverse.dropWhile (· = cut)).reverse

/-! ## steamcmd client (`internal/steamcmd/client.go`)

The client shells out to the steamcmd tool and reads files; we model each
collaborator outcome as an explicit environment field and return, next to
the Go result, the trace of collaborator invocations the function makes. -/

namespace steamcmd

/-- The token `"buildid"` (with quotes) searched for in manifest and
app-info output lines. -/
def buildidTok : GoStr := gs ("\"buildid\"")

/-- The token `"public"` marking entry into the public branch section. -/
def publicTok : GoStr := gs ("\"public\"")

/-- The token `"`+`}` marking exit from a bracketed section
(`strings.Contains(line, "\"}")` in the source). -/
def closeBraceTok : GoStr := ['\"', '\x7d']

/-- The token `branches` excluded by the fallback scan. -/
def branchesTok : GoStr := gs ("branches")

/-- The `Success` marker token required in steamcmd output. -/
def successTok : GoStr := gs ("Success")

/-- Outcome of one `runSteamCMD`/`CombinedOutput` subprocess run: the
combined stdout+stderr text and the exit error (`none` = exit 0). -/
structure RunResult where
  output : GoStr
  exit : Option GoStr

/-- `getInstalledBuildID` manifest-line scan: first line containing the
quoted `buildid` token with at least two whitespace-delimited fields wins;
a matching line with fewer than two fields is skipped (the Go loop simply
continues). -/
def findBuildIDLine : List GoStr → Except GoStr GoStr
  | [] => .error (gs ("buildid not found in manifest"))
  | line :: rest =>
    if goContains line buildidTok then
      match goFields line with
      | _ :: v :: _ => .ok (goTrim v '\"')
      | _ => findBuildIDLine rest
    else findBuildIDLine rest

/-- `getInstalledBuildID`: `manifest` is the appmanifest file content,
`none` when the file does not exist (the `os.IsNotExist` branch returns
`("", nil)`). -/
def getInstalledBuildID (manifest : Option GoStr) : Except GoStr GoStr :=
  match manifest with
  | none => .ok []
  | some data => findBuildIDLine (goSplitLines data)

/-- The script `getLatestBuildID` writes for the metadata query
(`app_info_check.txt`): login, `app_info_print <appID>` and quit; no
`app_update` directive. -/
def appInfoScript (appID : GoStr) : GoStr :=
  gs ("@ShutdownOnFailedCommand 1\n@NoPromptForPassword 1\nlogin anonymous\napp_info_print ")
    ++ appID ++ gs ("\nquit\n")

/-- The script `createUpdateScript` writes for `ApplyUpdate`
(`validateOnly = false`, so the validate flag is empty). -/
def updateScript (gameMountPath appID : GoStr) : GoStr :=
  gs ("@ShutdownOnFailedCommand 1\n@NoPromptForPassword 1\nforce_install_dir ")
    ++ gameMountPath ++ gs ("\nlogin anonymous\napp_update ") ++ appID
    ++ gs (" \nquit\n")

/-- Fallback scan of `getLatestBuildID`: within the 50-line window starting
at the line containing the quoted app id, take the first line containing
the `buildid` token outside a `branches` context whose second field trims
to a non-empty, non-`"0"` value. -/
def fallbackScan : List GoStr → Option GoStr
  | [] => none
  | l :: rest =>
    if goContains l buildidTok && !goContains l branchesTok then
      match goFields l with
      | _ :: v :: _ =>
        let b := goTrim v '\"'
        if b ≠ [] ∧ b ≠ gs ("0") then some b else fallbackScan rest
      | _ => fallbackScan rest
    else fallbackScan rest

/-- The line loop of `getLatestBuildID`: `q` is the quoted app id token.
A line containing `"public"` enters the public section (and is otherwise
skipped); inside the section, a closing-brace line that is not a buildid
line leaves it; inside the section a buildid line with at least two fields
returns its trimmed second field; otherwise a line containing `q` starts
the 50-line fallback window, whose hit is returned; else continue. -/
def glLoop (q : GoStr) : List GoStr → Bool → Option GoStr
  | [], _ => none
  | line :: rest, inPublic =>
    if goContains line publicTok then glLoop q rest true
    else if inPublic && goContains line closeBraceTok && !goContains line buildidTok then
      glLoop q rest false
    else if inPublic && goContains line buildidTok && 2 ≤ (goFields line).length then
      some (goTrim ((goFields line).getD 1 []) '\"')
    else if goContains line q then
      match fallbackScan ((line :: rest).take 50) with
      | some v => some v
      | none => glLoop q rest inPublic
    else glLoop q rest inPublic

/-- The quoted app id `fmt.Sprintf("\"%s\"", c.steamAppID)`. -/
def quoted (s : GoStr) : GoStr := '\"' :: (s ++ ['\"'])

/-- A well-formed buildid line: the quoted key, then whitespace, then the
quoted value, with optional surrounding whitespace. -/
def wellFormedBuildIDLine (line X : GoStr) : Prop :=
  ∃ w1 w2 w3, line = w1 ++ (buildidTok ++ (w2 ++ (quoted X ++ w3))) ∧
    (∀ c ∈ w1, isGoSpace c = true) ∧ (∀ c ∈ w2, isGoSpace c = true) ∧
    (∀ c ∈ w3, isGoSpace c = true) ∧ w2 ≠ [] ∧ X ≠ [] ∧
    (∀ c ∈ X, isGoSpace c = false ∧ c ≠ '\"')

/-- A line the fallback scan skips. -/
def fallbackSkips (l : GoStr) : Prop :=
  goContains l buildidTok = false ∨ goContains l branchesTok = true ∨
    (goFields l).length < 2 ∨
    (∃ x v t, goFields l = x :: v :: t ∧
      (goTrim v '\"' = [] ∨ goTrim v '\"' = gs ("0")))

/-- Output parsing of `getLatestBuildID` (after a zero-exit run). -/
def parseLatestBuildID (appID output : GoStr) : Except GoStr GoStr :=
  match glLoop (quoted appID) (goSplitLines output) false with
  | some b => .ok b
  | none => .error (gs ("buildid not found in app_info output"))

/-- `getLatestBuildID`: writes the app-info script, runs the tool once, and
parses the combined output; the second component is the trace of scripts
handed to the tool. -/
def getLatestBuildID (appID : GoStr) (r : RunResult) :
    Except GoStr GoStr × List GoStr :=
  match r.exit with
  | some e =>
    (.error (gs ("failed to query app info: ") ++ e ++ gs (", output: ") ++ r.output),
      [appInfoScript appID])
  | none => (parseLatestBuildID appID r.output, [appInfoScript appID])

/-- Environment of one `CheckUpdate` call: the `isGameInstalled` probe, the
appmanifest content (`none` = absent), and the outcome the tool would
produce for the metadata query. -/
structure CheckEnv where
  installed : Bool
  manifest : Option GoStr
  appInfoRun : RunResult

/-- Collaborator invocations observable during `CheckUpdate`. -/
inductive CheckEv where
  | readManifest
  | runScript (script : GoStr)
deriving DecidableEq

/-- `CheckUpdate`: compare installed and latest build ids, returning the
decision (or error) together with the invocation trace. -/
def checkUpdate (appID : GoStr) (env : CheckEnv) :
    Except GoStr Bool × List CheckEv :=
  if !env.installed then (.ok true, [])
  else
    match getInstalledBuildID env.manifest with
    | .error e =>
      (.error (gs ("failed to get installed build ID: ") ++ e), [.readManifest])
    | .ok installedBID =>
      if installedBID = [] then (.ok true, [.readManifest])
      else
        match getLatestBuildID appID env.appInfoRun with
        | (.error e, scripts) =>
          (.error (gs ("failed to get latest build ID: ") ++ e),
            .readManifest :: scripts.map .runScript)
        | (.ok latestBID, scripts) =>
          (.ok (installedBID ≠ latestBID),
            .readManifest :: scripts.map .runScript)

/-- `hasState0x6Error`: the corruption signature over combined output. -/
def hasState0x6Error (output : GoStr) : Bool :=
  goContains output (gs ("state is 0x6")) ||
  goContains output (gs ("state is 0x606")) ||
  (goContains output (gs ("Error! App")) && goContains output (gs ("0x6")))

/-- Collaborator invocations observable during `ApplyUpdate`: a run of the
update script, or the `os.RemoveAll` of the steamapps directory. -/
inductive ApplyEv where
  | runUpdateScript
  | clearSteamApps
deriving DecidableEq

/-- Environment of one `ApplyUpdate` call: the first run's outcome, the
outcome of clearing the steamapps directory, and the retry run's outcome
(consulted only on the recovery path). -/
structure ApplyEnv where
  run1 : RunResult
  clearErr : Option GoStr
  run2 : RunResult

/-- `ApplyUpdate` (assuming the script file write succeeds): run the update
script; on the 0x6 corruption signature clear steamapps and re-run once;
require the `Success` marker in the final output even on zero exit. -/
def applyUpdate (env : ApplyEnv) : Except GoStr Unit × List ApplyEv :=
  let out1 := env.run1.output
  if hasState0x6Error out1 then
    match env.clearErr with
    | some e =>
      (.error (gs ("failed to clear steamapps for recovery: ") ++ e),
        [.runUpdateScript, .clearSteamApps])
    | none =>
      let out2 := env.run2.output
      match env.run2.exit with
      | some e =>
        (.error (gs ("steamcmd update failed after 0x6 recovery: ") ++ e
            ++ gs (", output: ") ++ out2),
          [.runUpdateScript, .clearSteamApps, .runUpdateScript])
      | none =>
        if goContains out2 successTok then
          (.ok (), [.runUpdateScript, .clearSteamApps, .runUpdateScript])
        else
          (.error (gs ("update may have failed, check output: ") ++ out2),
            [.runUpdateScript, .clearSteamApps, .runUpdateScript])
  else
    match env.run1.exit with
    | some e =>
      (.error (gs ("steamcmd update failed: ") ++ e ++ gs (", output: ") ++ out1),
        [.runUpdateScript])
    | none =>
      if goContains out1 successTok then (.ok (), [.runUpdateScript])
      else
        (.error (gs ("update may have failed, check output: ") ++ out1),
          [.runUpdateScript])

/-- `ValidateUpdate` (assuming the script file write succeeds): run the
validation script and require zero exit and the `Success` marker. -/
def validateUpdate (r : RunResult) : Except GoStr Unit :=
  match r.exit with
  | some e =>
    .error (gs ("validation failed: ") ++ e ++ gs (", output: ") ++ r.output)
  | none =>
    if goContains r.output successTok then .ok ()
    else .error (gs ("validation reported issues: ") ++ r.output)

end steamcmd

/-! ## Kubernetes client (`internal/k8s/client.go`) -/

namespace k8s

/-- One entry of a pod's (or ReplicaSet's) `OwnerReferences` list. -/
structure OwnerRef where
  kind : GoStr
  name : GoStr
deriving DecidableEq

/-- The slice of a pod `GetPodOwner` reads: its name and owner references. -/
structure Pod where
  name : GoStr
  ownerRefs : List OwnerRef
deriving DecidableEq

/-- The `ReplicaSet` kind string. -/
def replicaSetKind : GoStr := gs ("ReplicaSet")

/-- `GetPodOwner`: `rsLookup` models
`clientset.AppsV1().ReplicaSets(ns).Get`, returning the fetched
ReplicaSet's own owner references or a fetch error. -/
def getPodOwner (rsLookup : GoStr → Except GoStr (List OwnerRef))
    (pod : Pod) : Except GoStr (GoStr × GoStr) :=
  match pod.ownerRefs with
  | [] => .error (gs ("pod ") ++ pod.name ++ gs (" has no owner references"))
  | owner :: _ =>
    if owner.kind = replicaSetKind then
      match rsLookup owner.name with
      | .error _ => .ok (owner.kind, owner.name)
      | .ok rsRefs =>
        match rsRefs with
        | rsOwner :: _ => .ok (rsOwner.kind, rsOwner.name)
        | [] => .ok (owner.kind, owner.name)
    else .ok (owner.kind, owner.name)

end k8s

/-! ## Controller (`internal/controller/restart.go` and the controller
file holding `UpdateController`, `applyUpdate`, `handleUpdateFailure`) -/

namespace controller

open k8s

/-- The per-cycle dedup key `fmt.Sprintf("%s/%s", ownerKind, ownerName)`. -/
def workloadKey (kind name : GoStr) : GoStr := kind ++ gs ("/") ++ name

/-- The loop body of `restartPods`: walk the pod list carrying the set of
already-restarted workload keys (as the list of its members, in insertion
order) and the accumulated list of restart dispatches (invocations of
`restartWorkload`). A failed dispatch is recorded but does not mark the
key as restarted. -/
def restartLoop (rsLookup : GoStr → Except GoStr (List OwnerRef))
    (restartW : GoStr → GoStr → Option GoStr) :
    List Pod → List GoStr → List (GoStr × GoStr) →
    List GoStr × List (GoStr × GoStr)
  | [], restarted, disp => (restarted, disp)
  | p :: rest, restarted, disp =>
    match getPodOwner rsLookup p with
    | .error _ => restartLoop rsLookup restartW rest restarted disp
    | .ok (k, n) =>
      if workloadKey k n ∈ restarted then
        restartLoop rsLookup restartW rest restarted disp
      else
        match restartW k n with
        | some _ => restartLoop rsLookup restartW rest restarted (disp ++ [(k, n)])
        | none =>
          restartLoop rsLookup restartW rest
            (restarted ++ [workloadKey k n]) (disp ++ [(k, n)])

/-- `restartPods`: an empty pod list is an immediate success; otherwise run
the loop and fail only when zero workloads were successfully restarted.
Returns the result and the dispatch trace. -/
def restartPods (rsLookup : GoStr → Except GoStr (List OwnerRef))
    (restartW : GoStr → GoStr → Option GoStr) (pods : List Pod) :
    Except GoStr Unit × List (GoStr × GoStr) :=
  if pods.length = 0 then (.ok (), [])
  else
    let (restarted, disp) := restartLoop rsLookup restartW pods [] []
    if restarted.length = 0 then
      (.error (gs ("failed to restart any workloads")), disp)
    else (.ok (), disp)

/-- The workload keys of the pods whose owner resolution succeeds, in pod
order (with repetitions). -/
def resolvedKeys (rsLookup : GoStr → Except GoStr (List OwnerRef))
    (pods : List Pod) : List GoStr :=
  pods.filterMap (fun p =>
    match getPodOwner rsLookup p with
    | .ok (k, n) => some (workloadKey k n)
    | .error _ => none)

/-- The wrapped error `handleUpdateFailure` returns when the retry budget
is exhausted: `fmt.Errorf("update failed after %d attempts: %w", ...)`. -/
def exhaustedErr (maxRetries : Nat) (e : GoStr) : GoStr :=
  gs ("update failed after ") ++ gs (Nat.repr maxRetries)
    ++ gs (" attempts: ") ++ e

/-- `handleUpdateFailure`: increment the shared retry counter; at the
maximum, reset it to zero and return the distinct exhausted error without
sleeping; below it, sleep the retry delay and return the failure as-is.
Result: (new retry count, returned error, whether the delay was slept). -/
def handleUpdateFailure (maxRetries rc : Nat) (e : GoStr) :
    Nat × GoStr × Bool :=
  let rc1 := rc + 1
  if maxRetries ≤ rc1 then (0, exhaustedErr maxRetries e, false)
  else (rc1, e, true)

/-- Outcomes of the three stages of the coordinator's `applyUpdate`
(`none` = the stage succeeds; later stages are consulted only if reached). -/
structure StageOutcomes where
  applyErr : Option GoStr
  validateErr : Option GoStr
  restartErr : Option GoStr

/-- The coordinator's `applyUpdate`: run apply, validate, restart in order;
the first stage failure is routed through `handleUpdateFailure` (with the
stage's wrapping prefix); full success resets the retry counter to zero.
Result: (new retry count, call result, whether the delay was slept). -/
def coordApplyUpdate (maxRetries rc : Nat) (st : StageOutcomes) :
    Nat × Except GoStr Unit × Bool :=
  match st.applyErr with
  | some e =>
    let (rc', e', slept) := handleUpdateFailure maxRetries rc e
    (rc', .error e', slept)
  | none =>
    match st.validateErr with
    | some e =>
      let (rc', e', slept) :=
        handleUpdateFailure maxRetries rc (gs ("update validation failed: ") ++ e)
      (rc', .error e', slept)
    | none =>
      match st.restartErr with
      | some e =>
        let (rc', e', slept) :=
          handleUpdateFailure maxRetries rc (gs ("failed to restart pods: ") ++ e)
        (rc', .error e', slept)
      | none => (0, .ok (), false)

/-- Fold a sequence of consecutive stage failures through
`handleUpdateFailure`, tracking only the retry counter. -/
def runFailures (maxRetries : Nat) (errs : List GoStr) (rc : Nat) : Nat :=
  errs.foldl (fun r e => (handleUpdateFailure maxRetries r e).1) rc

end controller

/-! ## Lemmas about the string model -/

lemma goStartsWith_iff (s pat : GoStr) :
    goStartsWith s pat = true ↔ ∃ v, s = pat ++ v := by
  induction pat generalizing s with
  | nil => simp [goStartsWith]
  | cons b t ih =>
    cases s with
    | nil => simp [goStartsWith]
    | cons a s' =>
      simp only [goStartsWith, Bool.and_eq_true, decide_eq_true_eq, ih]
      constructor
      · rintro ⟨rfl, v, rfl⟩
        exact ⟨v, rfl⟩
      · rintro ⟨v, hv⟩
        injection hv with h1 h2
        exact ⟨h1, v, h2⟩

lemma goContains_iff (s pat : GoStr) :
    goContains s pat = true ↔ ∃ u v, s = u ++ pat ++ v := by
  induction s with
  | nil =>
    simp only [goContains, List.isEmpty_iff]
    constructor
    · rintro rfl; exact ⟨[], [], rfl⟩
    · rintro ⟨u, v, h⟩
      rcases List.append_eq_nil.mp h.symm with ⟨h1, h2⟩
      exact (List.append_eq_nil.mp h1).2
  | cons c s' ih =>
    simp only [goContains, Bool.or_eq_true, goStartsWith_iff, ih]
    constructor
    · rintro (⟨v, hv⟩ | ⟨u, v, rfl⟩)
      · exact ⟨[], v, by simpa using hv⟩
      · exact ⟨c :: u, v, rfl⟩
    · rintro ⟨u, v, h⟩
      cases u with
      | nil => exact Or.inl ⟨v, by simpa using h⟩
      | cons x u' =>
        injection h with h1 h2
        exact Or.inr ⟨u', v, h2⟩

lemma goContains_of_parts (u pat v : GoStr) :
    goContains (u ++ pat ++ v) pat = true :=
  (goContains_iff _ _).mpr ⟨u, v, rfl⟩

lemma mem_of_goContains {s pat : GoStr} (h : goContains s pat = true) :
    ∀ c ∈ pat, c ∈ s := by
  obtain ⟨u, v, rfl⟩ := (goContains_iff s pat).mp h
  intro c hc
  simp [List.mem_append, hc]

/-- An occurrence of `pat` in `a ++ b` lies in `a`, lies in `b`, or spans
the boundary, in which case a nonempty suffix `r` of `pat` is a prefix of
`b`. -/
lemma goContains_append_cases {a b pat : GoStr}
    (h : goContains (a ++ b) pat = true) :
    goContains a pat = true ∨ goContains b pat = true ∨
      ∃ w r, pat = w ++ r ∧ r ≠ [] ∧ ∃ t, b = r ++ t := by
  obtain ⟨u, v, huv⟩ := (goContains_iff _ _).mp h
  rw [List.append_assoc] at huv
  rcases List.append_eq_append_iff.mp huv with ⟨a', _, hb⟩ | ⟨c', ha, hrest⟩
  · exact Or.inr (Or.inl ((goContains_iff _ _).mpr
      ⟨a', v, by rw [hb, List.append_assoc]⟩))
  · rcases List.append_eq_append_iff.mp hrest with ⟨p', hc, _⟩ | ⟨w', hpat, hb⟩
    · refine Or.inl ((goContains_iff _ _).mpr ⟨u, p', ?_⟩)
      rw [ha, hc, List.append_assoc]
    · cases w' with
      | nil =>
        refine Or.inl ((goContains_iff _ _).mpr ⟨u, [], ?_⟩)
        rw [ha, hpat]; simp
      | cons x w'' =>
        exact Or.inr (Or.inr ⟨c', x :: w'', hpat, by simp, v, hb⟩)

lemma goSplitLines_append_newline (a b : GoStr) (ha : '\n' ∉ a) :
    goSplitLines (a ++ '\n' :: b) = a :: goSplitLines b := by
  induction a with
  | nil => simp [goSplitLines]
  | cons c a' ih =>
    have hc : ¬(c = '\n') := fun h => ha (h ▸ List.mem_cons_self c a')
    have ih' := ih (fun h => ha (List.mem_cons_of_mem _ h))
    simp only [List.cons_append, goSplitLines, if_neg hc, List.append_eq, ih']

lemma dropWhile_of_head_neg {p : Char → Bool} {x : Char} {l : GoStr}
    (h : p x = false) : (x :: l).dropWhile p = x :: l := by
  simp [List.dropWhile, h]

lemma goTrim_quoted (X : GoStr) (h : ∀ c ∈ X, c ≠ '\"') (hne : X ≠ []) :
    goTrim ('\"' :: (X ++ ['\"'])) '\"' = X := by
  unfold goTrim
  have h1 : ('\"' :: (X ++ ['\"'])).dropWhile (· = '\"') = X ++ ['\"'] := by
    rw [List.dropWhile_cons]
    simp only [decide_True, if_true]
    cases X with
    | nil => exact absurd rfl hne
    | cons x xs =>
      apply dropWhile_of_head_neg
      simp [h x (List.mem_cons_self x xs)]
  rw [h1]
  have h2 : (X ++ ['\"']).reverse = '\"' :: X.reverse := by simp
  rw [h2, List.dropWhile_cons]
  simp only [decide_True, if_true]
  cases hrev : X.reverse with
  | nil => simp at hrev; exact absurd hrev hne
  | cons y ys =>
    have hy : y ∈ X := by
      have : y ∈ X.reverse := hrev ▸ List.mem_cons_self y ys
      simpa using this
    rw [dropWhile_of_head_neg (by simp [h y hy])]
    rw [← hrev, List.reverse_reverse]

lemma goFieldsAux_all_space (ws : GoStr) (h : ∀ c ∈ ws, isGoSpace c = true) :
    goFieldsAux ws [] = [] := by
  induction ws with
  | nil => rfl
  | cons c ws' ih =>
    have ih' := ih (fun x hx => h x (List.mem_cons_of_mem _ hx))
    simp [goFieldsAux, h c (List.mem_cons_self c ws'), ih']

lemma goFieldsAux_space (ws s : GoStr) (h : ∀ c ∈ ws, isGoSpace c = true) :
    goFieldsAux (ws ++ s) [] = goFieldsAux s [] := by
  induction ws with
  | nil => rfl
  | cons c ws' ih =>
    have ih' := ih (fun x hx => h x (List.mem_cons_of_mem _ hx))
    simp [goFieldsAux, h c (List.mem_cons_self c ws'), ih']

lemma goFieldsAux_word (w : GoStr) (h : ∀ c ∈ w, isGoSpace c = false) :
    ∀ s acc, goFieldsAux (w ++ s) acc = goFieldsAux s (w.reverse ++ acc) := by
  induction w with
  | nil => intro s acc; rfl
  | cons c w' ih =>
    intro s acc
    have ih' := ih (fun x hx => h x (List.mem_cons_of_mem _ hx)) s (c :: acc)
    simp [goFieldsAux, h c (List.mem_cons_self c w'), ih']

lemma goFieldsAux_space_end (ws acc : GoStr)
    (h : ∀ c ∈ ws, isGoSpace c = true) (hacc : acc ≠ []) :
    goFieldsAux ws acc = [acc.reverse] := by
  cases ws with
  | nil => simp [goFieldsAux, hacc]
  | cons c ws' =>
    have h' := goFieldsAux_all_space ws' (fun x hx => h x (List.mem_cons_of_mem _ hx))
    simp [goFieldsAux, h c (List.mem_cons_self c ws'), hacc, h']

lemma goFieldsAux_space_mid (ws s acc : GoStr)
    (h : ∀ c ∈ ws, isGoSpace c = true) (hws : ws ≠ []) (hacc : acc ≠ []) :
    goFieldsAux (ws ++ s) acc = acc.reverse :: goFieldsAux s [] := by
  cases ws with
  | nil => exact absurd rfl hws
  | cons c ws' =>
    have h' := goFieldsAux_space ws' s (fun x hx => h x (List.mem_cons_of_mem _ hx))
    simp [goFieldsAux, h c (List.mem_cons_self c ws'), hacc, h']

/-- `strings.Fields` on a line made of two non-blank words separated and
surrounded by whitespace. -/
lemma goFields_two_words (w1 a w2 b w3 : GoStr)
    (hw1 : ∀ c ∈ w1, isGoSpace c = true)
    (hw2 : ∀ c ∈ w2, isGoSpace c = true)
    (hw3 : ∀ c ∈ w3, isGoSpace c = true)
    (ha : a ≠ []) (hna : ∀ c ∈ a, isGoSpace c = false)
    (hw2ne : w2 ≠ [])
    (hb : b ≠ []) (hnb : ∀ c ∈ b, isGoSpace c = false) :
    goFields (w1 ++ (a ++ (w2 ++ (b ++ w3)))) = [a, b] := by
  unfold goFields
  rw [goFieldsAux_space w1 _ hw1]
  rw [goFieldsAux_word a hna _ []]
  rw [List.append_nil]
  rw [goFieldsAux_space_mid w2 _ _ hw2 hw2ne (by simpa using ha)]
  rw [List.reverse_reverse]
  rw [goFieldsAux_word b hnb _ []]
  rw [List.append_nil]
  rw [goFieldsAux_space_end w3 _ hw3 (by simpa using hb)]
  rw [List.reverse_reverse]

/-! ## Claim C3: the installed build id reader -/

namespace steamcmd

/-- A line that lacks the buildid token, or has fewer than two fields, is
skipped by the manifest scan. -/
lemma findBuildIDLine_skip_one (l : GoStr) (rest : List GoStr)
    (h : goContains l buildidTok = false ∨ (goFields l).length < 2) :
    findBuildIDLine (l :: rest) = findBuildIDLine rest := by
  by_cases hc : goContains l buildidTok = true
  · rcases h with h | h
    · rw [h] at hc; exact absurd hc (by simp)
    · rcases hf : goFields l with _ | ⟨x, _ | ⟨y, t⟩⟩
      · simp [findBuildIDLine, hc, hf]
      · simp [findBuildIDLine, hc, hf]
      · rw [hf] at h; simp at h; omega
  · simp [findBuildIDLine, hc]

/-- A manifest none of whose lines carries a usable buildid field yields
the malformed-manifest error. -/
lemma findBuildIDLine_all_skip (lines : List GoStr)
    (h : ∀ l ∈ lines, goContains l buildidTok = false ∨ (goFields l).length < 2) :
    findBuildIDLine lines = .error (gs ("buildid not found in manifest")) := by
  induction lines with
  | nil => rfl
  | cons l rest ih =>
    rw [findBuildIDLine_skip_one l rest (h l (List.mem_cons_self l rest))]
    exact ih (fun x hx => h x (List.mem_cons_of_mem _ hx))

lemma goFields_wellFormed {line X : GoStr} (h : wellFormedBuildIDLine line X) :
    goFields line = [buildidTok, quoted X] := by
  obtain ⟨w1, w2, w3, hline, hw1, hw2, hw3, hw2ne, hXne, hX⟩ := h
  rw [hline]
  exact goFields_two_words w1 buildidTok w2 (quoted X) w3 hw1 hw2 hw3
    (by decide) (by decide)
    hw2ne (by simp [quoted])
    (by
      intro c hc
      rcases List.mem_cons.mp hc with rfl | hc
      · decide
      · rcases List.mem_append.mp hc with hc | hc
        · exact (hX c hc).1
        · rcases List.mem_singleton.mp hc with rfl; decide)

lemma goContains_wellFormed {line X : GoStr} (h : wellFormedBuildIDLine line X) :
    goContains line buildidTok = true := by
  obtain ⟨w1, w2, w3, hline, -⟩ := h
  rw [hline, ← List.append_assoc]
  exact goContains_of_parts w1 buildidTok _

/-- Claim C3: `getInstalledBuildID` returns `("", nil)` when the manifest
file is absent; for every manifest whose first buildid-bearing line is a
well-formed `"buildid" "X"` line, it returns exactly `X` with the quotes
stripped, regardless of surrounding whitespace and of unrelated lines; and
when the manifest is present but no usable buildid field exists it returns
the distinguishable `buildid not found in manifest` error, never the empty
string. -/
theorem claim_C3_installedBuildID_contract :
    (getInstalledBuildID none = .ok []) ∧
    (∀ data X pre line post,
      goSplitLines data = pre ++ line :: post →
      (∀ l ∈ pre, goContains l buildidTok = false ∨ (goFields l).length < 2) →
      wellFormedBuildIDLine line X →
      getInstalledBuildID (some data) = .ok X) ∧
    (∀ data,
      (∀ l ∈ goSplitLines data,
        goContains l buildidTok = false ∨ (goFields l).length < 2) →
      getInstalledBuildID (some data) =
        .error (gs ("buildid not found in manifest"))) := by
  refine ⟨rfl, ?_, ?_⟩
  · intro data X pre line post hsplit hpre hwf
    show findBuildIDLine (goSplitLines data) = .ok X
    rw [hsplit]
    have hskip : findBuildIDLine (pre ++ line :: post) = findBuildIDLine (line :: post) := by
      clear hsplit
      induction pre with
      | nil => rfl
      | cons l ps ih =>
        rw [List.cons_append,
          findBuildIDLine_skip_one l _ (hpre l (List.mem_cons_self l ps))]
        exact ih (fun x hx => hpre x (List.mem_cons_of_mem _ hx))
    rw [hskip]
    have hcontains := goContains_wellFormed hwf
    have hfields := goFields_wellFormed hwf
    obtain ⟨-, -, -, -, -, -, -, -, hXne, hX⟩ := hwf
    simp only [findBuildIDLine, hcontains, if_true, hfields]
    rw [show quoted X = '\"' :: (X ++ ['\"']) from rfl]
    rw [goTrim_quoted X (fun c hc => (hX c hc).2) hXne]
  · intro data h
    exact findBuildIDLine_all_skip _ h

/-- Witness for C3 at concrete manifests. -/
theorem claim_C3_installedBuildID_contract_witness :
    getInstalledBuildID (some (gs ("junkline\n\t\"buildid\"\t\t\"42\"\nrest")))
      = .ok (gs ("42")) ∧
    getInstalledBuildID (some (gs ("no ids here")))
      = .error (gs ("buildid not found in manifest")) := by
  constructor
  · exact claim_C3_installedBuildID_contract.2.1 _ (gs ("42"))
      [gs ("junkline")] (gs ("\t\"buildid\"\t\t\"42\"")) [gs ("rest")]
      (by decide) (by decide)
      ⟨['\t'], ['\t', '\t'], [], by decide, by decide, by decide, by decide,
        by decide, by decide, by decide⟩
  · exact claim_C3_installedBuildID_contract.2.2 _ (by decide)

/-! ## Claim C2: the CheckUpdate decision procedure -/

/-- The metadata query always hands the tool exactly the app-info script. -/
lemma getLatestBuildID_trace (appID : GoStr) (r : RunResult) :
    (getLatestBuildID appID r).2 = [appInfoScript appID] := by
  unfold getLatestBuildID
  cases r.exit <;> rfl

/-- Claim C2: the `CheckUpdate` decision procedure. Not installed: returns
`(true, nil)` with an empty invocation trace (so no manifest read and no
tool run); installed with an empty local build id: `(true, nil)`; a failed
remote query propagates as an error; otherwise the result is `(true, nil)`
exactly when the local and remote build ids differ and `(false, nil)` when
they are equal. -/
theorem claim_C2_checkUpdate_decision (appID : GoStr) (env : CheckEnv) :
    (env.installed = false → checkUpdate appID env = (.ok true, [])) ∧
    (env.installed = true → getInstalledBuildID env.manifest = .ok [] →
      (checkUpdate appID env).1 = .ok true) ∧
    (env.installed = true → ∀ bid, getInstalledBuildID env.manifest = .ok bid →
      bid ≠ [] → ∀ e, (getLatestBuildID appID env.appInfoRun).1 = .error e →
      (checkUpdate appID env).1 =
        .error (gs ("failed to get latest build ID: ") ++ e)) ∧
    (env.installed = true → ∀ bid, getInstalledBuildID env.manifest = .ok bid →
      bid ≠ [] → ∀ latest, (getLatestBuildID appID env.appInfoRun).1 = .ok latest →
      (checkUpdate appID env).1 = .ok (decide (bid ≠ latest))) := by
  refine ⟨?_, ?_, ?_, ?_⟩
  · intro h
    simp [checkUpdate, h]
  · intro h hbid
    simp [checkUpdate, h, hbid]
  · intro h bid hbid hne e hq
    rcases hg : getLatestBuildID appID env.appInfoRun with ⟨res, scripts⟩
    rw [hg] at hq; simp at hq
    simp [checkUpdate, h, hbid, hne, hg, hq]
  · intro h bid hbid hne latest hq
    rcases hg : getLatestBuildID appID env.appInfoRun with ⟨res, scripts⟩
    rw [hg] at hq; simp at hq
    simp [checkUpdate, h, hbid, hne, hg, hq]

/-- Witness for C2 at concrete environments. -/
theorem claim_C2_checkUpdate_decision_witness :
    (checkUpdate (gs ("232250")) ⟨false, none, ⟨[], none⟩⟩ = (.ok true, [])) ∧
    ((checkUpdate (gs ("232250"))
      ⟨true, some (gs ("\"buildid\" \"1001\"")),
        ⟨gs ("\"public\"\n\"buildid\" \"1001\"\n"), none⟩⟩).1 = .ok false) ∧
    ((checkUpdate (gs ("232250"))
      ⟨true, some (gs ("\"buildid\" \"1001\"")),
        ⟨gs ("\"public\"\n\"buildid\" \"1002\"\n"), none⟩⟩).1 = .ok true) ∧
    ((checkUpdate (gs ("232250"))
      ⟨true, some (gs ("\"buildid\" \"1001\"")),
        ⟨gs ("steam boot failure"), some (gs ("exit status 8"))⟩⟩).1 =
      .error (gs ("failed to get latest build ID: failed to query app info: exit status 8, output: steam boot failure"))) ∧
    ((checkUpdate (gs ("232250")) ⟨true, none, ⟨[], none⟩⟩).1 = .ok true) := by
  refine ⟨?_, ?_, ?_, ?_, ?_⟩
  · exact (claim_C2_checkUpdate_decision (gs ("232250")) _).1 rfl
  · have := (claim_C2_checkUpdate_decision (gs ("232250"))
      ⟨true, some (gs ("\"buildid\" \"1001\"")),
        ⟨gs ("\"public\"\n\"buildid\" \"1001\"\n"), none⟩⟩).2.2.2
      rfl (gs ("1001")) (by decide) (by decide) (gs ("1001")) (by decide)
    rw [this]; decide
  · have := (claim_C2_checkUpdate_decision (gs ("232250"))
      ⟨true, some (gs ("\"buildid\" \"1001\"")),
        ⟨gs ("\"public\"\n\"buildid\" \"1002\"\n"), none⟩⟩).2.2.2
      rfl (gs ("1001")) (by decide) (by decide) (gs ("1002")) (by decide)
    rw [this]; decide
  · have := (claim_C2_checkUpdate_decision (gs ("232250"))
      ⟨true, some (gs ("\"buildid\" \"1001\"")),
        ⟨gs ("steam boot failure"), some (gs ("exit status 8"))⟩⟩).2.2.1
      rfl (gs ("1001")) (by decide) (by decide)
      (gs ("failed to query app info: exit status 8, output: steam boot failure"))
      (by decide)
    rw [this]; decide
  · exact (claim_C2_checkUpdate_decision (gs ("232250"))
      ⟨true, none, ⟨[], none⟩⟩).2.1 rfl (by decide)

/-! ## Claim C1: CheckUpdate never invokes the download path -/

/-- Every script handed to the tool during `CheckUpdate` is the app-info
script. -/
lemma checkUpdate_scripts (appID : GoStr) (env : CheckEnv) :
    ∀ s, CheckEv.runScript s ∈ (checkUpdate appID env).2 →
      s = appInfoScript appID := by
  intro s hs
  unfold checkUpdate at hs
  rcases env with ⟨inst, man, run⟩
  cases inst with
  | false => simp at hs
  | true =>
    simp only [Bool.not_true] at hs
    rcases hg : getLatestBuildID appID run with ⟨res, scripts⟩
    have hscripts : scripts = [appInfoScript appID] := by
      have := getLatestBuildID_trace appID run
      rw [hg] at this; exact this
    cases hb : getInstalledBuildID man with
    | error e => simp [hb] at hs
    | ok bid =>
      by_cases hbe : bid = []
      · simp [hb, hbe] at hs
      · rw [hb] at hs
        simp only [if_neg (by simpa using hbe), hg] at hs
        cases res with
        | error e =>
          simp [hscripts] at hs
          exact hs
        | ok latest =>
          simp [hscripts] at hs
          exact hs

/-- The app-info script splits into exactly the directive lines written by
the Go format string (plus the empty tail produced by the final newline). -/
lemma appInfoScript_lines (appID : GoStr) (hnl : '\n' ∉ appID) :
    goSplitLines (appInfoScript appID) =
      [gs ("@ShutdownOnFailedCommand 1"), gs ("@NoPromptForPassword 1"),
       gs ("login anonymous"), gs ("app_info_print ") ++ appID,
       gs ("quit"), []] := by
  have hdecomp : appInfoScript appID =
      gs ("@ShutdownOnFailedCommand 1") ++ '\n' ::
        (gs ("@NoPromptForPassword 1") ++ '\n' ::
          (gs ("login anonymous") ++ '\n' ::
            ((gs ("app_info_print ") ++ appID) ++ '\n' ::
              (gs ("quit") ++ '\n' :: [])))) := by
    show gs ("@ShutdownOnFailedCommand 1\n@NoPromptForPassword 1\nlogin anonymous\napp_info_print ")
        ++ appID ++ gs ("\nquit\n") = _
    have h1 : gs ("@ShutdownOnFailedCommand 1\n@NoPromptForPassword 1\nlogin anonymous\napp_info_print ")
        = gs ("@ShutdownOnFailedCommand 1") ++ '\n' ::
          (gs ("@NoPromptForPassword 1") ++ '\n' ::
            (gs ("login anonymous") ++ '\n' :: gs ("app_info_print "))) := by decide
    have h2 : gs ("\nquit\n") = '\n' :: (gs ("quit") ++ '\n' :: []) := by decide
    rw [h1, h2]
    simp [List.append_assoc]
  rw [hdecomp]
  rw [goSplitLines_append_newline _ _ (by decide)]
  rw [goSplitLines_append_newline _ _ (by decide)]
  rw [goSplitLines_append_newline _ _ (by decide)]
  rw [goSplitLines_append_newline _ _ (by
    intro hmem
    rcases List.mem_append.mp hmem with h | h
    · exact absurd h (by decide)
    · exact hnl h)]
  rw [goSplitLines_append_newline _ _ (by decide)]
  rfl

/-- The app-info script never contains the `app_update` directive token,
for a non-empty all-digit app id. -/
lemma appInfoScript_no_app_update (appID : GoStr)
    (hD : ∀ c ∈ appID, c.isDigit = true) (hne : appID ≠ []) :
    goContains (appInfoScript appID) (gs ("app_update")) = false := by
  by_contra hcon
  have h : goContains (appInfoScript appID) (gs ("app_update")) = true := by
    simpa using hcon
  rw [appInfoScript, List.append_assoc] at h
  have hpatDigits : ∀ c ∈ gs ("app_update"), c.isDigit = false := by decide
  have hpatNL : ∀ c ∈ gs ("app_update"), c ≠ '\n' := by decide
  rcases goContains_append_cases h with hP | hbs | ⟨w, r, hpat, hrne, t, hbt⟩
  · exact absurd hP (by decide)
  · rcases goContains_append_cases hbs with hA | hS | ⟨w, r, hpat, hrne, t, hbt⟩
    · have hmem := mem_of_goContains hA
      have : ('a' : Char) ∈ appID := hmem 'a' (by decide)
      have := hD 'a' this
      simp at this
    · exact absurd hS (by decide)
    · cases r with
      | nil => exact absurd rfl hrne
      | cons rh r' =>
        have hrh : rh = '\n' := by
          have : gs ("\nquit\n") = rh :: (r' ++ t) := by simpa using hbt
          have := congrArg List.head? this
          simpa [gs] using this.symm
        have : rh ∈ gs ("app_update") := by
          rw [hpat]; simp
        exact absurd hrh (hpatNL rh this)
  · cases r with
    | nil => exact absurd rfl hrne
    | cons rh r' =>
      cases hApp : appID with
      | nil => exact absurd hApp hne
      | cons ah a'' =>
        have hheads : ah = rh := by
          rw [hApp] at hbt
          have : ah :: (a'' ++ gs ("\nquit\n")) = rh :: (r' ++ t) := by
            simpa using hbt
          injection this
        have hrhpat : rh ∈ gs ("app_update") := by
          rw [hpat]; simp
        have : rh.isDigit = true := by
          rw [← hheads]
          exact hD ah (hApp ▸ List.mem_cons_self ah a'')
        rw [hpatDigits rh hrhpat] at this
        exact absurd this (by simp)

/-- Claim C1: `CheckUpdate` never invokes the download/apply path. Every
script it ever hands the steamcmd tool is the metadata query script, whose
lines are the two `@` tool settings, `login anonymous`,
`app_info_print <appID>` and `quit`, and which nowhere contains the
`app_update` (download/validate) directive for a non-empty numeric app
id. -/
theorem claim_C1_checkUpdate_no_download (appID : GoStr) (env : CheckEnv)
    (hD : ∀ c ∈ appID, c.isDigit = true) (hne : appID ≠ []) :
    ∀ s, CheckEv.runScript s ∈ (checkUpdate appID env).2 →
      s = appInfoScript appID ∧
      goContains s (gs ("app_update")) = false ∧
      goSplitLines s =
        [gs ("@ShutdownOnFailedCommand 1"), gs ("@NoPromptForPassword 1"),
         gs ("login anonymous"), gs ("app_info_print ") ++ appID,
         gs ("quit"), []] := by
  intro s hs
  have hnl : '\n' ∉ appID := by
    intro hmem
    have := hD '\n' hmem
    simp [Char.isDigit] at this
  have heq := checkUpdate_scripts appID env s hs
  subst heq
  exact ⟨rfl, appInfoScript_no_app_update _ hD hne, appInfoScript_lines _ hnl⟩

/-- Witness for C1: the default app id `232250`, in an environment where
the query actually runs. -/
theorem claim_C1_checkUpdate_no_download_witness :
    CheckEv.runScript (appInfoScript (gs ("232250"))) ∈
      (checkUpdate (gs ("232250"))
        ⟨true, some (gs ("\"buildid\" \"1001\"")),
          ⟨gs ("\"public\"\n\"buildid\" \"1002\"\n"), none⟩⟩).2 ∧
    goContains (appInfoScript (gs ("232250"))) (gs ("app_update")) = false := by
  constructor
  · decide
  · exact (claim_C1_checkUpdate_no_download (gs ("232250"))
      ⟨true, some (gs ("\"buildid\" \"1001\"")),
        ⟨gs ("\"public\"\n\"buildid\" \"1002\"\n"), none⟩⟩
      (by decide) (by decide)
      (appInfoScript (gs ("232250"))) (by decide)).2.1

/-! ## Claim C4: remote build-id parsing -/

lemma glLoop_neutral (q l : GoStr) (rest : List GoStr)
    (h1 : goContains l publicTok = false) (h2 : goContains l q = false) :
    glLoop q (l :: rest) false = glLoop q rest false := by
  simp [glLoop, h1, h2]

lemma glLoop_enter (q pub : GoStr) (rest : List GoStr) (b : Bool)
    (h : goContains pub publicTok = true) :
    glLoop q (pub :: rest) b = glLoop q rest true := by
  simp [glLoop, h]

lemma glLoop_mid (q l : GoStr) (rest : List GoStr)
    (h1 : goContains l publicTok = false) (h2 : goContains l closeBraceTok = false)
    (h3 : goContains l buildidTok = false) (h4 : goContains l q = false) :
    glLoop q (l :: rest) true = glLoop q rest true := by
  simp [glLoop, h1, h2, h3, h4]

lemma glLoop_hit (q bl : GoStr) (rest : List GoStr)
    (h1 : goContains bl publicTok = false) (h2 : goContains bl buildidTok = true)
    (h3 : 2 ≤ (goFields bl).length) :
    glLoop q (bl :: rest) true = some (goTrim ((goFields bl).getD 1 []) '\"') := by
  simp [glLoop, h1, h2, h3]

lemma glLoop_none (q : GoStr) (lines : List GoStr)
    (h : ∀ l ∈ lines, goContains l buildidTok = false ∧ goContains l q = false) :
    ∀ b, glLoop q lines b = none := by
  induction lines with
  | nil => intro b; rfl
  | cons l rest ih =>
    intro b
    obtain ⟨hb, hq⟩ := h l (List.mem_cons_self l rest)
    have ih' := ih (fun x hx => h x (List.mem_cons_of_mem _ hx))
    by_cases hp : goContains l publicTok = true
    · rw [glLoop_enter q l rest b hp]; exact ih' true
    · have hp' : goContains l publicTok = false := by simpa using hp
      by_cases hc : b && goContains l closeBraceTok
      · simp only [glLoop, hp', Bool.false_eq_true, if_false, hb, hq]
        simp [hc, hb, ih' false, ih' b]
      · simp only [glLoop, hp', Bool.false_eq_true, if_false, hb, hq]
        simp [hb, hq, ih' false, ih' b]

lemma fallbackScan_skip_one (l : GoStr) (rest : List GoStr)
    (h : fallbackSkips l) :
    fallbackScan (l :: rest) = fallbackScan rest := by
  rcases h with h | h | h | ⟨x, v, t, hf, hv⟩
  · simp [fallbackScan, h]
  · simp [fallbackScan, h]
  · rcases hf : goFields l with _ | ⟨x, _ | ⟨y, t⟩⟩
    · by_cases hb : goContains l buildidTok = true <;>
        simp [fallbackScan, hb, hf]
    · by_cases hb : goContains l buildidTok = true <;>
        simp [fallbackScan, hb, hf]
    · rw [hf] at h; simp at h; omega
  · by_cases hb : goContains l buildidTok = true
    · by_cases hbr : goContains l branchesTok = true
      · simp [fallbackScan, hbr]
      · have hbr' : goContains l branchesTok = false := by simpa using hbr
        rcases hv with hv | hv <;> simp [fallbackScan, hb, hbr', hf, hv]
    · simp [fallbackScan, by simpa using hb]

lemma fallbackScan_hit (wl : GoStr) (w2 : List GoStr) {x v : GoStr} {t : List GoStr}
    (h1 : goContains wl buildidTok = true) (h2 : goContains wl branchesTok = false)
    (hf : goFields wl = x :: v :: t)
    (hv1 : goTrim v '\"' ≠ []) (hv2 : goTrim v '\"' ≠ gs ("0")) :
    fallbackScan (wl :: w2) = some (goTrim v '\"') := by
  simp [fallbackScan, h1, h2, hf, hv1, hv2]

/-- Claim C4: `getLatestBuildID` output parsing. (1) The first buildid
line inside the `"public"` branch section (entered by a line containing
the branch token, left by a closing-brace line that is not a buildid line)
is authoritative. (2) Otherwise, the 50-line window starting at a line
containing the quoted app id is scanned by the fallback. (3) The fallback
takes the first line in the window carrying a buildid token outside a
`branches` context whose value is non-empty and non-zero. (4) When no line
matches either heuristic the call fails with the `buildid not found`
error rather than reporting "no update". -/
theorem claim_C4_latest_buildid_parsing (appID : GoStr) :
    (∀ output pre pub mid bl post,
      goSplitLines output = pre ++ pub :: (mid ++ bl :: post) →
      (∀ l ∈ pre, goContains l publicTok = false ∧
        goContains l (quoted appID) = false) →
      goContains pub publicTok = true →
      (∀ l ∈ mid, goContains l publicTok = false ∧
        goContains l closeBraceTok = false ∧
        goContains l buildidTok = false ∧
        goContains l (quoted appID) = false) →
      goContains bl publicTok = false → goContains bl buildidTok = true →
      2 ≤ (goFields bl).length →
      parseLatestBuildID appID output =
        .ok (goTrim ((goFields bl).getD 1 []) '\"')) ∧
    (∀ output pre al rest,
      goSplitLines output = pre ++ al :: rest →
      (∀ l ∈ pre, goContains l publicTok = false ∧
        goContains l (quoted appID) = false) →
      goContains al publicTok = false →
      goContains al (quoted appID) = true →
      ∀ v, fallbackScan ((al :: rest).take 50) = some v →
      parseLatestBuildID appID output = .ok v) ∧
    (∀ w1 wl w2 x v t,
      (∀ l ∈ w1, fallbackSkips l) →
      goContains wl buildidTok = true → goContains wl branchesTok = false →
      goFields wl = x :: v :: t →
      goTrim v '\"' ≠ [] → goTrim v '\"' ≠ gs ("0") →
      fallbackScan (w1 ++ wl :: w2) = some (goTrim v '\"')) ∧
    (∀ output,
      (∀ l ∈ goSplitLines output, goContains l buildidTok = false ∧
        goContains l (quoted appID) = false) →
      parseLatestBuildID appID output =
        .error (gs ("buildid not found in app_info output"))) := by
  refine ⟨?_, ?_, ?_, ?_⟩
  · intro output pre pub mid bl post hsplit hpre hpub hmid hbl1 hbl2 hbl3
    unfold parseLatestBuildID
    rw [hsplit]
    have hskip : glLoop (quoted appID) (pre ++ pub :: (mid ++ bl :: post)) false
        = glLoop (quoted appID) (pub :: (mid ++ bl :: post)) false := by
      clear hsplit
      induction pre with
      | nil => rfl
      | cons l ps ih =>
        obtain ⟨h1, h2⟩ := hpre l (List.mem_cons_self l ps)
        rw [List.cons_append, glLoop_neutral _ l _ h1 h2]
        exact ih (fun x hx => hpre x (List.mem_cons_of_mem _ hx))
    rw [hskip, glLoop_enter _ _ _ _ hpub]
    have hskip2 : glLoop (quoted appID) (mid ++ bl :: post) true
        = glLoop (quoted appID) (bl :: post) true := by
      clear hsplit hskip
      induction mid with
      | nil => rfl
      | cons l ms ih =>
        obtain ⟨h1, h2, h3, h4⟩ := hmid l (List.mem_cons_self l ms)
        rw [List.cons_append, glLoop_mid _ l _ h1 h2 h3 h4]
        exact ih (fun x hx => hmid x (List.mem_cons_of_mem _ hx))
    rw [hskip2, glLoop_hit _ _ _ hbl1 hbl2 hbl3]
  · intro output pre al rest hsplit hpre hal1 hal2 v hfb
    unfold parseLatestBuildID
    rw [hsplit]
    have hskip : glLoop (quoted appID) (pre ++ al :: rest) false
        = glLoop (quoted appID) (al :: rest) false := by
      clear hsplit
      induction pre with
      | nil => rfl
      | cons l ps ih =>
        obtain ⟨h1, h2⟩ := hpre l (List.mem_cons_self l ps)
        rw [List.cons_append, glLoop_neutral _ l _ h1 h2]
        exact ih (fun x hx => hpre x (List.mem_cons_of_mem _ hx))
    rw [hskip]
    have hfb' : fallbackScan (al :: rest.take 49) = some v := by
      simpa using hfb
    simp [glLoop, hal1, hal2, hfb']
  · intro w1 wl w2 x v t hw1 h1 h2 hf hv1 hv2
    have hskip : fallbackScan (w1 ++ wl :: w2) = fallbackScan (wl :: w2) := by
      induction w1 with
      | nil => rfl
      | cons l ws ih =>
        rw [List.cons_append, fallbackScan_skip_one l _ (hw1 l (List.mem_cons_self l ws))]
        exact ih (fun y hy => hw1 y (List.mem_cons_of_mem _ hy))
    rw [hskip]
    exact fallbackScan_hit wl w2 h1 h2 hf hv1 hv2
  · intro output h
    unfold parseLatestBuildID
    rw [glLoop_none (quoted appID) _ h false]

/-- Witness for C4: the three success paths and the error path on concrete
app-info outputs. -/
theorem claim_C4_latest_buildid_parsing_witness :
    parseLatestBuildID (gs ("232250"))
      (gs ("\"branches\"\nx\n\"public\"\nx\n\"buildid\"\t\"777\"\ny"))
      = .ok (gs ("777")) ∧
    parseLatestBuildID (gs ("232250"))
      (gs ("intro\n\"232250\"\n\"size\" \"9\"\n\"buildid\" \"888\"\n"))
      = .ok (gs ("888")) ∧
    fallbackScan [gs ("\"buildid\" \"0\""), gs ("\"buildid\" \"888\"")]
      = some (gs ("888")) ∧
    parseLatestBuildID (gs ("232250")) (gs ("nothing relevant\nat all"))
      = .error (gs ("buildid not found in app_info output")) := by
  refine ⟨?_, ?_, ?_, ?_⟩
  · exact (claim_C4_latest_buildid_parsing (gs ("232250"))).1
      _ [gs ("\"branches\""), gs ("x")] (gs ("\"public\"")) [gs ("x")]
      (gs ("\"buildid\"\t\"777\"")) [gs ("y")]
      (by decide) (by decide) (by decide) (by decide) (by decide) (by decide)
      (by decide)
  · exact (claim_C4_latest_buildid_parsing (gs ("232250"))).2.1
      _ [gs ("intro")] (gs ("\"232250\""))
      [gs ("\"size\" \"9\""), gs ("\"buildid\" \"888\""), []]
      (by decide) (by decide) (by decide) (by decide)
      (gs ("888")) (by decide)
  · exact (claim_C4_latest_buildid_parsing (gs ("232250"))).2.2.1
      [gs ("\"buildid\" \"0\"")] (gs ("\"buildid\" \"888\"")) []
      (gs ("\"buildid\"")) (gs ("\"888\"")) []
      (fun l hl => by
        rcases List.mem_singleton.mp hl with rfl
        exact Or.inr (Or.inr (Or.inr
          ⟨gs ("\"buildid\""), gs ("\"0\""), [], by decide, Or.inr (by decide)⟩)))
      (by decide) (by decide) (by decide) (by decide) (by decide)
  · exact (claim_C4_latest_buildid_parsing (gs ("232250"))).2.2.2
      _ (by decide)

/-! ## Claim C5: one-shot corruption recovery in ApplyUpdate -/

/-- Claim C5: whenever the first apply run's combined output matches the
0x6 corruption signature, exactly one steamapps deletion is attempted and
at most one retry run happens (exactly one when the deletion succeeds,
hence exactly one recovery attempt, never more); and if the retry run also
fails, the call returns the terminal error carrying the retry's output. -/
theorem claim_C5_corruption_recovery (env : ApplyEnv)
    (hsig : hasState0x6Error env.run1.output = true) :
    ((applyUpdate env).2.count .clearSteamApps = 1) ∧
    ((applyUpdate env).2.count .runUpdateScript ≤ 2) ∧
    (env.clearErr = none →
      (applyUpdate env).2 = [.runUpdateScript, .clearSteamApps, .runUpdateScript]) ∧
    (env.clearErr = none → ∀ e, env.run2.exit = some e →
      (applyUpdate env).1 =
        .error (gs ("steamcmd update failed after 0x6 recovery: ") ++ e
          ++ gs (", output: ") ++ env.run2.output)) := by
  unfold applyUpdate
  rcases env with ⟨run1, clearErr, run2⟩
  simp only [hsig, if_true]
  rcases clearErr with _ | ce
  · rcases hexit : run2.exit with _ | e
    · by_cases hsucc : goContains run2.output successTok = true
      · simp [hsucc, List.count]
      · simp [by simpa using hsucc, List.count]
    · simp [List.count]
  · simp [List.count]

/-- Witness for C5: signature on the first run, clear succeeds, retry
fails; one clear, two runs, terminal error carrying the retry output. -/
theorem claim_C5_corruption_recovery_witness :
    (applyUpdate ⟨⟨gs ("Error! App 232250 state is 0x6"), some (gs ("exit 8"))⟩,
        none, ⟨gs ("still broken"), some (gs ("exit 8"))⟩⟩).2
      = [.runUpdateScript, .clearSteamApps, .runUpdateScript] ∧
    (applyUpdate ⟨⟨gs ("Error! App 232250 state is 0x6"), some (gs ("exit 8"))⟩,
        none, ⟨gs ("still broken"), some (gs ("exit 8"))⟩⟩).1
      = .error (gs ("steamcmd update failed after 0x6 recovery: exit 8, output: still broken")) := by
  constructor
  · exact (claim_C5_corruption_recovery
      ⟨⟨gs ("Error! App 232250 state is 0x6"), some (gs ("exit 8"))⟩,
        none, ⟨gs ("still broken"), some (gs ("exit 8"))⟩⟩ (by decide)).2.2.1 rfl
  · have := (claim_C5_corruption_recovery
      ⟨⟨gs ("Error! App 232250 state is 0x6"), some (gs ("exit 8"))⟩,
        none, ⟨gs ("still broken"), some (gs ("exit 8"))⟩⟩ (by decide)).2.2.2
      rfl (gs ("exit 8")) rfl
    rw [this]; decide

/-! ## Claim C6: the tool's exit code alone is never trusted -/

/-- Claim C6: the tool exit code alone is never trusted. `ApplyUpdate`
returns an error whenever the effective combined output lacks the
`Success` marker, even on zero exit; `ValidateUpdate` returns nil exactly
when the tool exits zero and the output contains the marker, and on a
zero exit without the marker it fails with the
`validation reported issues` error. -/
theorem claim_C6_success_marker_required (env : ApplyEnv) (r : RunResult) :
    (goContains
        (if hasState0x6Error env.run1.output then env.run2.output
         else env.run1.output) successTok = false →
      ∃ msg, (applyUpdate env).1 = .error msg) ∧
    (validateUpdate r = .ok () ↔
      r.exit = none ∧ goContains r.output successTok = true) ∧
    (r.exit = none → goContains r.output successTok = false →
      validateUpdate r =
        .error (gs ("validation reported issues: ") ++ r.output)) := by
  refine ⟨?_, ?_, ?_⟩
  · intro hmiss
    unfold applyUpdate
    rcases env with ⟨run1, clearErr, run2⟩
    by_cases hsig : hasState0x6Error run1.output = true
    · rw [if_pos hsig] at hmiss
      simp only [hsig, if_true]
      rcases clearErr with _ | ce
      · rcases run2.exit with _ | e
        · simp [hmiss]
        · simp
      · simp
    · have hsig' : hasState0x6Error run1.output = false := by simpa using hsig
      rw [hsig', if_neg (by simp)] at hmiss
      simp only [hsig', Bool.false_eq_true, if_false]
      rcases run1.exit with _ | e
      · simp [hmiss]
      · simp
  · unfold validateUpdate
    rcases hexit : r.exit with _ | e
    · by_cases hsucc : goContains r.output successTok = true
      · simp [hsucc]
      · simp [by simpa using hsucc]
    · simp
  · intro hexit hmiss
    unfold validateUpdate
    rw [hexit]
    simp [hmiss]

/-- Witness for C6: zero exit without the marker fails for both apply and
validate. -/
theorem claim_C6_success_marker_required_witness :
    (∃ msg, (applyUpdate ⟨⟨gs ("completed quietly"), none⟩, none,
      ⟨[], none⟩⟩).1 = .error msg) ∧
    validateUpdate ⟨gs ("quiet"), none⟩ =
      .error (gs ("validation reported issues: quiet")) ∧
    validateUpdate ⟨gs ("all ok Success"), none⟩ = .ok () := by
  refine ⟨?_, ?_, ?_⟩
  · exact (claim_C6_success_marker_required
      ⟨⟨gs ("completed quietly"), none⟩, none, ⟨[], none⟩⟩
      ⟨gs ("quiet"), none⟩).1 (by decide)
  · exact (claim_C6_success_marker_required
      ⟨⟨gs ("completed quietly"), none⟩, none, ⟨[], none⟩⟩
      ⟨gs ("quiet"), none⟩).2.2 rfl (by decide)
  · exact (claim_C6_success_marker_required
      ⟨⟨gs ("completed quietly"), none⟩, none, ⟨[], none⟩⟩
      ⟨gs ("all ok Success"), none⟩).2.1.mpr ⟨rfl, by decide⟩

end steamcmd

/-! ## Claim C7: retry-counter lifecycle -/

namespace controller

open k8s

lemma handleUpdateFailure_below (max rc : Nat) (e : GoStr) (h : rc + 1 < max) :
    handleUpdateFailure max rc e = (rc + 1, e, true) := by
  unfold handleUpdateFailure
  rw [if_neg (by omega)]

lemma handleUpdateFailure_exhaust (max rc : Nat) (e : GoStr) (h : max ≤ rc + 1) :
    handleUpdateFailure max rc e = (0, exhaustedErr max e, false) := by
  unfold handleUpdateFailure
  rw [if_pos (by omega)]

lemma runFailures_below (max : Nat) :
    ∀ errs : List GoStr, ∀ rc, rc + errs.length < max →
      runFailures max errs rc = rc + errs.length := by
  intro errs
  induction errs with
  | nil => intro rc h; simp [runFailures]
  | cons e es ih =>
    intro rc h
    have hlen : rc + (e :: es).length = rc + es.length + 1 := by
      simp; omega
    have hstep : runFailures max (e :: es) rc =
        runFailures max es (handleUpdateFailure max rc e).1 := rfl
    rw [hstep, handleUpdateFailure_below max rc e (by simp at h; omega)]
    rw [ih (rc + 1) (by simp at h ⊢; omega)]
    simp; omega

lemma runFailures_exhaust (max : Nat) :
    ∀ errs : List GoStr, ∀ rc, errs ≠ [] → rc + errs.length = max →
      runFailures max errs rc = 0 := by
  intro errs
  induction errs with
  | nil => intro rc h; exact absurd rfl h
  | cons e es ih =>
    intro rc _ h
    have hstep : runFailures max (e :: es) rc =
        runFailures max es (handleUpdateFailure max rc e).1 := rfl
    cases es with
    | nil =>
      rw [hstep, handleUpdateFailure_exhaust max rc e (by simp at h; omega)]
      rfl
    | cons e2 es2 =>
      rw [hstep, handleUpdateFailure_below max rc e (by simp at h; omega)]
      exact ih (rc + 1) (by simp) (by simp at h ⊢; omega)

/-- Claim C7: retry-counter lifecycle. Each stage failure routed through
`handleUpdateFailure` increments the shared counter by one; below the
maximum the configured delay is slept and the failure is returned as-is
(no internal re-invocation); at exactly `MaxRetries` consecutive failures
the counter resets to zero and the distinct exhausted error is surfaced,
so the next failure counts from 1; and any full success of the
coordinator's apply/validate/restart sequence resets the counter to zero
unconditionally. -/
theorem claim_C7_retry_counter_lifecycle :
    (∀ max rc : Nat, ∀ e, rc + 1 < max →
      handleUpdateFailure max rc e = (rc + 1, e, true)) ∧
    (∀ max rc : Nat, ∀ e, max ≤ rc + 1 →
      handleUpdateFailure max rc e = (0, exhaustedErr max e, false)) ∧
    (∀ max : Nat, ∀ errs : List GoStr, errs.length < max →
      runFailures max errs 0 = errs.length) ∧
    (∀ max : Nat, ∀ errs : List GoStr, errs ≠ [] → errs.length = max →
      runFailures max errs 0 = 0) ∧
    (∀ max rc : Nat,
      coordApplyUpdate max rc ⟨none, none, none⟩ = (0, .ok (), false)) ∧
    (∀ max rc : Nat, ∀ st e, st.applyErr = some e →
      coordApplyUpdate max rc st =
        ((handleUpdateFailure max rc e).1,
          .error (handleUpdateFailure max rc e).2.1,
          (handleUpdateFailure max rc e).2.2)) ∧
    (∀ max rc : Nat, ∀ st e, st.applyErr = none → st.validateErr = some e →
      coordApplyUpdate max rc st =
        ((handleUpdateFailure max rc (gs ("update validation failed: ") ++ e)).1,
          .error (handleUpdateFailure max rc (gs ("update validation failed: ") ++ e)).2.1,
          (handleUpdateFailure max rc (gs ("update validation failed: ") ++ e)).2.2)) ∧
    (∀ max rc : Nat, ∀ st e, st.applyErr = none → st.validateErr = none →
      st.restartErr = some e →
      coordApplyUpdate max rc st =
        ((handleUpdateFailure max rc (gs ("failed to restart pods: ") ++ e)).1,
          .error (handleUpdateFailure max rc (gs ("failed to restart pods: ") ++ e)).2.1,
          (handleUpdateFailure max rc (gs ("failed to restart pods: ") ++ e)).2.2)) := by
  refine ⟨handleUpdateFailure_below, handleUpdateFailure_exhaust, ?_, ?_, ?_, ?_, ?_, ?_⟩
  · intro max errs h
    simpa using runFailures_below max errs 0 (by omega)
  · intro max errs hne h
    exact runFailures_exhaust max errs 0 hne (by omega)
  · intro max rc; rfl
  · intro max rc st e h
    simp [coordApplyUpdate, h]
  · intro max rc st e h1 h2
    simp [coordApplyUpdate, h1, h2]
  · intro max rc st e h1 h2 h3
    simp [coordApplyUpdate, h1, h2, h3]

/-- Witness for C7 with `MaxRetries = 3`. -/
theorem claim_C7_retry_counter_lifecycle_witness :
    handleUpdateFailure 3 0 (gs ("boom")) = (1, gs ("boom"), true) ∧
    handleUpdateFailure 3 2 (gs ("boom")) =
      (0, gs ("update failed after 3 attempts: boom"), false) ∧
    runFailures 3 [gs ("a"), gs ("b")] 0 = 2 ∧
    runFailures 3 [gs ("a"), gs ("b"), gs ("c")] 0 = 0 ∧
    coordApplyUpdate 3 2 ⟨none, none, none⟩ = (0, .ok (), false) ∧
    coordApplyUpdate 3 0 ⟨some (gs ("boom")), none, none⟩ =
      (1, .error (gs ("boom")), true) := by
  refine ⟨?_, ?_, ?_, ?_, ?_, ?_⟩
  · exact claim_C7_retry_counter_lifecycle.1 3 0 (gs ("boom")) (by decide)
  · have := claim_C7_retry_counter_lifecycle.2.1 3 2 (gs ("boom")) (by decide)
    rw [this]; decide
  · exact claim_C7_retry_counter_lifecycle.2.2.1 3 [gs ("a"), gs ("b")] (by decide)
  · exact claim_C7_retry_counter_lifecycle.2.2.2.1 3
      [gs ("a"), gs ("b"), gs ("c")] (by decide) (by decide)
  · exact claim_C7_retry_counter_lifecycle.2.2.2.2.1 3 2
  · have := claim_C7_retry_counter_lifecycle.2.2.2.2.2.1 3 0
      ⟨some (gs ("boom")), none, none⟩ (gs ("boom")) rfl
    rw [this]; decide

/-! ## Claim C8: per-cycle restart deduplication -/

lemma resolvedKeys_cons_error {rsL : GoStr → Except GoStr (List OwnerRef)}
    {p : Pod} {e : GoStr} (rest : List Pod) (h : getPodOwner rsL p = .error e) :
    resolvedKeys rsL (p :: rest) = resolvedKeys rsL rest := by
  simp [resolvedKeys, h]

lemma resolvedKeys_cons_ok {rsL : GoStr → Except GoStr (List OwnerRef)}
    {p : Pod} {k n : GoStr} (rest : List Pod)
    (h : getPodOwner rsL p = .ok (k, n)) :
    resolvedKeys rsL (p :: rest) = workloadKey k n :: resolvedKeys rsL rest := by
  simp [resolvedKeys, h]

/-- Loop invariant of `restartPods` when every dispatched restart succeeds:
the keys appended to the restarted set are exactly the keys appended to the
dispatch trace; they are distinct, new, and are precisely the resolved keys
not already seen. -/
lemma restartLoop_invariant (rsL : GoStr → Except GoStr (List OwnerRef))
    (restartW : GoStr → GoStr → Option GoStr)
    (hrw : ∀ k n, restartW k n = none) :
    ∀ pods : List Pod, ∀ seen : List GoStr, ∀ disp : List (GoStr × GoStr),
      ∃ t, (restartLoop rsL restartW pods seen disp).1 = seen ++ t ∧
        ((restartLoop rsL restartW pods seen disp).2.map
            (fun p => workloadKey p.1 p.2)
          = disp.map (fun p => workloadKey p.1 p.2) ++ t) ∧
        t.Nodup ∧ (∀ x ∈ t, x ∉ seen) ∧
        (∀ x, x ∈ t ↔ (x ∉ seen ∧ x ∈ resolvedKeys rsL pods)) := by
  intro pods
  induction pods with
  | nil =>
    intro seen disp
    exact ⟨[], by simp [restartLoop], by simp [restartLoop],
      List.nodup_nil, by simp, by simp [resolvedKeys]⟩
  | cons p rest ih =>
    intro seen disp
    cases hp : getPodOwner rsL p with
    | error e =>
      have hrl : restartLoop rsL restartW (p :: rest) seen disp
          = restartLoop rsL restartW rest seen disp := by
        simp [restartLoop, hp]
      obtain ⟨t, h1, h2, h3, h4, h5⟩ := ih seen disp
      refine ⟨t, hrl ▸ h1, hrl ▸ h2, h3, h4, fun x => ?_⟩
      rw [h5 x, resolvedKeys_cons_error rest hp]
    | ok kn =>
      rcases kn with ⟨k, n⟩
      by_cases hmem : workloadKey k n ∈ seen
      · have hrl : restartLoop rsL restartW (p :: rest) seen disp
            = restartLoop rsL restartW rest seen disp := by
          simp [restartLoop, hp, hmem]
        obtain ⟨t, h1, h2, h3, h4, h5⟩ := ih seen disp
        refine ⟨t, hrl ▸ h1, hrl ▸ h2, h3, h4, fun x => ?_⟩
        rw [h5 x, resolvedKeys_cons_ok rest hp]
        constructor
        · rintro ⟨hxs, hxr⟩
          exact ⟨hxs, List.mem_cons_of_mem _ hxr⟩
        · rintro ⟨hxs, hxr⟩
          rcases List.mem_cons.mp hxr with rfl | hxr
          · exact absurd hmem hxs
          · exact ⟨hxs, hxr⟩
      · have hrl : restartLoop rsL restartW (p :: rest) seen disp
            = restartLoop rsL restartW rest
                (seen ++ [workloadKey k n]) (disp ++ [(k, n)]) := by
          simp [restartLoop, hp, hmem, hrw k n]
        obtain ⟨t', h1, h2, h3, h4, h5⟩ :=
          ih (seen ++ [workloadKey k n]) (disp ++ [(k, n)])
        refine ⟨workloadKey k n :: t', ?_, ?_, ?_, ?_, fun x => ?_⟩
        · rw [hrl, h1]; simp
        · rw [hrl, h2]; simp
        · refine List.nodup_cons.mpr ⟨fun hkey => ?_, h3⟩
          have := h4 _ hkey
          simp at this
        · intro x hx
          rcases List.mem_cons.mp hx with rfl | hx
          · exact hmem
          · have := h4 x hx
            simp at this
            exact this.1
        · rw [resolvedKeys_cons_ok rest hp]
          constructor
          · intro hx
            rcases List.mem_cons.mp hx with rfl | hx
            · exact ⟨hmem, List.mem_cons_self _ _⟩
            · have hns := h4 x hx
              simp at hns
              have hr := (h5 x).mp hx
              exact ⟨hns.1, List.mem_cons_of_mem _ hr.2⟩
          · rintro ⟨hxs, hxr⟩
            rcases List.mem_cons.mp hxr with rfl | hxr
            · exact List.mem_cons_self _ _
            · by_cases hxk : x = workloadKey k n
              · exact hxk ▸ List.mem_cons_self _ _
              · refine List.mem_cons_of_mem _ ((h5 x).mpr ⟨?_, hxr⟩)
                simp [hxs, hxk]

/-- The dispatch trace of `restartPods` is the loop's, whatever the final
zero-restarts check decides. -/
lemma restartPods_disp (rsL : GoStr → Except GoStr (List OwnerRef))
    (restartW : GoStr → GoStr → Option GoStr) (pods : List Pod) :
    (restartPods rsL restartW pods).2
      = (restartLoop rsL restartW pods [] []).2 := by
  unfold restartPods
  by_cases h : pods.length = 0
  · rw [if_pos h]
    have hnil : pods = [] := List.length_eq_zero.mp h
    subst hnil; rfl
  · rw [if_neg h]
    rcases hl : restartLoop rsL restartW pods [] [] with ⟨r, d⟩
    by_cases hr : r.length = 0 <;> simp [hl, hr]

/-- Claim C8, amended: within one `restartPods` cycle, provided every
dispatched restart succeeds, each distinct resolved owner key is
dispatched exactly once (the dispatched keys are duplicate-free and are
exactly the resolved keys), and in particular a pod list of any length
resolving to exactly two distinct owners causes exactly two dispatches.
(As stated the claim is false: a failed dispatch does not mark the owner,
so the same owner can be dispatched again — see the counterexample.) -/
theorem claim_C8_restart_dedup (rsL : GoStr → Except GoStr (List OwnerRef))
    (restartW : GoStr → GoStr → Option GoStr) (pods : List Pod)
    (hrw : ∀ k n, restartW k n = none) :
    ((restartPods rsL restartW pods).2.map
        (fun p => workloadKey p.1 p.2)).Nodup ∧
    (∀ x, x ∈ (restartPods rsL restartW pods).2.map
        (fun p => workloadKey p.1 p.2) ↔ x ∈ resolvedKeys rsL pods) ∧
    (∀ k1 k2, k1 ≠ k2 →
      (∀ x ∈ resolvedKeys rsL pods, x = k1 ∨ x = k2) →
      k1 ∈ resolvedKeys rsL pods → k2 ∈ resolvedKeys rsL pods →
      (restartPods rsL restartW pods).2.length = 2) := by
  obtain ⟨t, h1, h2, h3, h4, h5⟩ := restartLoop_invariant rsL restartW hrw pods [] []
  have hmap : (restartPods rsL restartW pods).2.map
      (fun p => workloadKey p.1 p.2) = t := by
    rw [restartPods_disp]
    simpa using h2
  refine ⟨hmap ▸ h3, fun x => ?_, ?_⟩
  · rw [hmap, h5 x]
    simp
  · intro k1 k2 hne hsub hk1 hk2
    have hlen : (restartPods rsL restartW pods).2.length = t.length := by
      rw [← hmap, List.length_map]
    rw [hlen]
    have hmemt : ∀ x, x ∈ t ↔ (x = k1 ∨ x = k2) := by
      intro x
      rw [h5 x]
      simp only [List.not_mem_nil, not_false_iff, true_and]
      constructor
      · exact fun hx => hsub x hx
      · rintro (rfl | rfl)
        · exact hk1
        · exact hk2
    have hfin : t.toFinset = {k1, k2} := by
      ext x
      simp [List.mem_toFinset, hmemt x]
    have hcard := List.toFinset_card_of_nodup h3
    rw [hfin, Finset.card_pair hne] at hcard
    omega

/-- Counterexample to C8 as stated: when the dispatched restart fails, the
owner is not marked restarted, and a second pod with the same owner causes
a second dispatch of the very same workload within the one cycle. -/
theorem claim_C8_restart_dedup_counterexample :
    (restartPods (fun _ => .error (gs ("nf")))
        (fun _ _ => some (gs ("boom")))
        [⟨gs ("p1"), [⟨gs ("StatefulSet"), gs ("a")⟩]⟩,
         ⟨gs ("p2"), [⟨gs ("StatefulSet"), gs ("a")⟩]⟩]).2
      = [(gs ("StatefulSet"), gs ("a")), (gs ("StatefulSet"), gs ("a"))] ∧
    ¬ ((restartPods (fun _ => .error (gs ("nf")))
        (fun _ _ => some (gs ("boom")))
        [⟨gs ("p1"), [⟨gs ("StatefulSet"), gs ("a")⟩]⟩,
         ⟨gs ("p2"), [⟨gs ("StatefulSet"), gs ("a")⟩]⟩]).2.count
          (gs ("StatefulSet"), gs ("a")) ≤ 1) := by
  constructor
  · decide
  · decide

/-- Witness for C8 (amended): three pods over two owners, all restarts
succeed, exactly two dispatches. -/
theorem claim_C8_restart_dedup_witness :
    (restartPods (fun _ => .error (gs ("nf"))) (fun _ _ => none)
      [⟨gs ("p1"), [⟨gs ("StatefulSet"), gs ("a")⟩]⟩,
       ⟨gs ("p2"), [⟨gs ("StatefulSet"), gs ("a")⟩]⟩,
       ⟨gs ("p3"), [⟨gs ("DaemonSet"), gs ("b")⟩]⟩]).2.length = 2 := by
  exact (claim_C8_restart_dedup (fun _ => .error (gs ("nf")))
      (fun _ _ => none)
      [⟨gs ("p1"), [⟨gs ("StatefulSet"), gs ("a")⟩]⟩,
       ⟨gs ("p2"), [⟨gs ("StatefulSet"), gs ("a")⟩]⟩,
       ⟨gs ("p3"), [⟨gs ("DaemonSet"), gs ("b")⟩]⟩]
      (fun _ _ => rfl)).2.2
    (gs ("StatefulSet/a")) (gs ("DaemonSet/b"))
    (by decide) (by decide) (by decide) (by decide)

/-! ## Claim C10: zero matching pods still counts as full success -/

/-- Claim C10: with an empty pod list `restartPods` returns nil (success)
without any dispatch, bypassing the zero-restarts check, so a cycle whose
apply and validate stages succeed ends as a full success and resets the
retry counter to zero even though zero workloads were restarted. -/
theorem claim_C10_zero_pods_full_success
    (rsL : GoStr → Except GoStr (List OwnerRef))
    (restartW : GoStr → GoStr → Option GoStr) (max rc : Nat) :
    restartPods rsL restartW [] = (.ok (), []) ∧
    coordApplyUpdate max rc
      ⟨none, none,
        match (restartPods rsL restartW []).1 with
        | .ok _ => none
        | .error e => some e⟩ = (0, .ok (), false) :=
  ⟨rfl, rfl⟩

end controller

/-! ## Claim C9: one-level owner flattening -/

namespace k8s

/-- Claim C9: `GetPodOwner` flattens exactly one ownership level. A pod
with no owner references is an error; a first reference of a
non-ReplicaSet kind is returned as-is; for a ReplicaSet reference, one
extra lookup returns the ReplicaSet's own first owner reference, and if
the ReplicaSet cannot be fetched or has no owner references the
ReplicaSet reference itself is returned with a nil error. -/
theorem claim_C9_getPodOwner_flattening
    (rsLookup : GoStr → Except GoStr (List OwnerRef)) (pod : Pod) :
    (pod.ownerRefs = [] → getPodOwner rsLookup pod =
      .error (gs ("pod ") ++ pod.name ++ gs (" has no owner references"))) ∧
    (∀ o rest, pod.ownerRefs = o :: rest → o.kind ≠ replicaSetKind →
      getPodOwner rsLookup pod = .ok (o.kind, o.name)) ∧
    (∀ o rest, pod.ownerRefs = o :: rest → o.kind = replicaSetKind →
      ∀ e, rsLookup o.name = .error e →
      getPodOwner rsLookup pod = .ok (o.kind, o.name)) ∧
    (∀ o rest, pod.ownerRefs = o :: rest → o.kind = replicaSetKind →
      rsLookup o.name = .ok [] →
      getPodOwner rsLookup pod = .ok (o.kind, o.name)) ∧
    (∀ o rest ro rrest, pod.ownerRefs = o :: rest → o.kind = replicaSetKind →
      rsLookup o.name = .ok (ro :: rrest) →
      getPodOwner rsLookup pod = .ok (ro.kind, ro.name)) := by
  refine ⟨?_, ?_, ?_, ?_, ?_⟩
  · intro h; simp [getPodOwner, h]
  · intro o rest h hk; simp [getPodOwner, h, hk]
  · intro o rest h hk e he; simp [getPodOwner, h, hk, he]
  · intro o rest h hk he; simp [getPodOwner, h, hk, he]
  · intro o rest ro rrest h hk he; simp [getPodOwner, h, hk, he]

/-- Witness for C9 over a concrete ReplicaSet table. -/
theorem claim_C9_getPodOwner_flattening_witness :
    getPodOwner
      (fun n => if n = gs ("rs-a")
        then .ok [OwnerRef.mk (gs ("Deployment")) (gs ("dep-a"))]
        else .error (gs ("not found")))
      ⟨gs ("p1"), [OwnerRef.mk (gs ("ReplicaSet")) (gs ("rs-a"))]⟩
      = .ok (gs ("Deployment"), gs ("dep-a")) ∧
    getPodOwner
      (fun n => if n = gs ("rs-a")
        then .ok [OwnerRef.mk (gs ("Deployment")) (gs ("dep-a"))]
        else .error (gs ("not found")))
      ⟨gs ("p2"), [OwnerRef.mk (gs ("ReplicaSet")) (gs ("rs-b"))]⟩
      = .ok (gs ("ReplicaSet"), gs ("rs-b")) ∧
    getPodOwner
      (fun n => if n = gs ("rs-a")
        then .ok [OwnerRef.mk (gs ("Deployment")) (gs ("dep-a"))]
        else .error (gs ("not found")))
      ⟨gs ("p3"), [OwnerRef.mk (gs ("StatefulSet")) (gs ("ss-1"))]⟩
      = .ok (gs ("StatefulSet"), gs ("ss-1")) ∧
    getPodOwner
      (fun n => if n = gs ("rs-a")
        then .ok [OwnerRef.mk (gs ("Deployment")) (gs ("dep-a"))]
        else .error (gs ("not found")))
      ⟨gs ("p4"), []⟩
      = .error (gs ("pod p4 has no owner references")) := by
  refine ⟨?_, ?_, ?_, ?_⟩
  · have := (claim_C9_getPodOwner_flattening (fun n => if n = gs ("rs-a")
        then .ok [OwnerRef.mk (gs ("Deployment")) (gs ("dep-a"))]
        else .error (gs ("not found")))
      ⟨gs ("p1"), [OwnerRef.mk (gs ("ReplicaSet")) (gs ("rs-a"))]⟩).2.2.2.2
      (OwnerRef.mk (gs ("ReplicaSet")) (gs ("rs-a"))) []
      (OwnerRef.mk (gs ("Deployment")) (gs ("dep-a"))) []
      rfl (by decide) (by decide)
    exact this
  · exact (claim_C9_getPodOwner_flattening (fun n => if n = gs ("rs-a")
        then .ok [OwnerRef.mk (gs ("Deployment")) (gs ("dep-a"))]
        else .error (gs ("not found")))
      ⟨gs ("p2"), [OwnerRef.mk (gs ("ReplicaSet")) (gs ("rs-b"))]⟩).2.2.1
      (OwnerRef.mk (gs ("ReplicaSet")) (gs ("rs-b"))) []
      rfl (by decide) (gs ("not found")) (by decide)
  · exact (claim_C9_getPodOwner_flattening (fun n => if n = gs ("rs-a")
        then .ok [OwnerRef.mk (gs ("Deployment")) (gs ("dep-a"))]
        else .error (gs ("not found")))
      ⟨gs ("p3"), [OwnerRef.mk (gs ("StatefulSet")) (gs ("ss-1"))]⟩).2.1
      (OwnerRef.mk (gs ("StatefulSet")) (gs ("ss-1"))) []
      rfl (by decide)
  · have := (claim_C9_getPodOwner_flattening
      (fun n => if n = gs ("rs-a")
        then .ok [OwnerRef.mk (gs ("Deployment")) (gs ("dep-a"))]
        else .error (gs ("not found")))
      ⟨gs ("p4"), []⟩).1 rfl
    rw [this]; decide

end k8s

end UpdateController
